import Mathlib

/-!
Verification development for the Auto-Parts-Finder web application
(`src/webapp.py`).  The Python code is shallowly embedded: strings are
modelled as `List Char`, Python `float` prices are modelled exactly in
integer cents (every price the program computes is exact to two decimal
places), `time.time()` values and dict hashes are modelled as `Int`, and
every external effect (the SerpAPI response, the Firebase identity
response, the Gemini image analysis, HTTP outcomes seen by the scraper)
is an explicit input of the corresponding function.

Modelling notes, recorded once here:
* Python whitespace (`str.strip`, regex `\s`) is modelled by the ASCII
  whitespace characters; no claim depends on non-ASCII whitespace.
* `round(x, 2)` in `_generate_realistic_auto_part_price` always lands on
  an exact multiple of a cent (the base prices are multiples of 5 and the
  factors are 1.0, 1.2, …, 2.0), so integer-cent arithmetic is exact.
* Python `dict` is modelled as an insertion-ordered association list,
  which matches the iteration order used by `min(self.cache.keys(), ...)`.
-/

namespace AutoParts

/-- Strings are embedded as lists of characters. -/
abbrev LC := List Char

/-- Convenience conversion from Lean string literals to the embedding. -/
def strL (s : String) : LC := s.data

/-- The apostrophe character (used by some store names and by
`html.escape`). -/
def apos : Char := Char.ofNat 39

/-- ASCII whitespace, as removed by Python `str.strip` and matched by the
regex class `\s` (space, tab, newline, carriage return, vertical tab,
form feed). -/
def pyWS (c : Char) : Bool :=
  c = ' ' || c = Char.ofNat 9 || c = Char.ofNat 10 || c = Char.ofNat 13 ||
  c = Char.ofNat 11 || c = Char.ofNat 12

/-- Python `str.lstrip()`. -/
def stripLeft (l : LC) : LC := l.dropWhile pyWS

/-- Python `str.rstrip()`. -/
def stripRight (l : LC) : LC := (l.reverse.dropWhile pyWS).reverse

/-- Python `str.strip()`. -/
def stripBoth (l : LC) : LC := stripRight (stripLeft l)

/-- Python `str.lower()` (ASCII case folding suffices for this program's
data). -/
def toLowerL (l : LC) : LC := l.map Char.toLower

/-- Python's substring test `needle in hay` (`"" in s` is `True`). -/
def containsSub (needle : LC) : LC → Bool
  | [] => needle.isEmpty
  | c :: t => List.isPrefixOf needle (c :: t) || containsSub needle t

/-- `any(word in text for word in words)`. -/
def anyKeyword (words : List LC) (text : LC) : Bool :=
  words.any (fun w => containsSub w text)

/-- UTF-8 encoding of one character, as byte values. -/
def utf8Bytes (c : Char) : List Nat :=
  let n := c.toNat
  if n < 128 then [n]
  else if n < 2048 then [192 + n / 64, 128 + n % 64]
  else if n < 65536 then [224 + n / 4096, 128 + n / 64 % 64, 128 + n % 64]
  else [240 + n / 262144, 128 + n / 4096 % 64, 128 + n / 64 % 64, 128 + n % 64]

/-- Upper-case hexadecimal digit, as produced by `urllib.parse.quote`. -/
def hexDigit (n : Nat) : Char :=
  if n < 10 then Char.ofNat (48 + n) else Char.ofNat (55 + n)

/-- Characters `urllib.parse.quote_plus` leaves unescaped
(ASCII letters, digits, and `_.-~`). -/
def quoteSafe (c : Char) : Bool :=
  c.isAlphanum || c = Char.ofNat 95 || c = '.' || c = '-' || c = Char.ofNat 126

/-- `urllib.parse.quote_plus`: spaces become `+`, safe characters pass
through, everything else is percent-encoded byte-wise (UTF-8). -/
def quote_plus (l : LC) : LC :=
  l.flatMap fun c =>
    if c = ' ' then ['+']
    else if quoteSafe c then [c]
    else (utf8Bytes c).flatMap fun b => ['%', hexDigit (b / 16), hexDigit (b % 16)]

/-- `html.escape` (with quoting), applied character-wise; equivalent to
Python's sequential `str.replace` calls because the replacement texts are
never re-examined by the later replacements. -/
def escapeChar (c : Char) : LC :=
  if c = '&' then strL "&amp;"
  else if c = '<' then strL "&lt;"
  else if c = '>' then strL "&gt;"
  else if c = Char.ofNat 34 then strL "&quot;"
  else if c = apos then strL "&#x27;"
  else [c]

/-- `html.escape(s)`. -/
def htmlEscape (l : LC) : LC := l.flatMap escapeChar

/-- `AutoPartsFinder._clean_text`: truncate to 150 characters and
HTML-escape; empty/None input becomes a placeholder. -/
def clean_text (text : LC) : LC :=
  if text = [] then strL "Sin informacion" else htmlEscape (text.take 150)

/-- Decimal digits of a natural number. -/
def natDigits (n : Nat) : LC := Nat.toDigits 10 n

/-- Format integer cents the way `f"${x:.2f}"` formats the corresponding
exact dollar amount. -/
def formatCents (cents : Nat) : LC :=
  '$' :: natDigits (cents / 100) ++
    ('.' :: (if cents % 100 < 10 then '0' :: natDigits (cents % 100) else natDigits (cents % 100)))

/-!  ## Price heuristics (`_generate_realistic_auto_part_price`) -/

/-- The keyword-bucket base price (in whole dollars) chosen by
`_generate_realistic_auto_part_price` before the per-index escalation. -/
def base_price (query : LC) : Nat :=
  let q := toLowerL query
  if anyKeyword [strL "engine", strL "transmission", strL "turbo",
      strL "catalytic converter"] q then 400
  else if anyKeyword [strL "brake", strL "rotor", strL "caliper",
      strL "strut", strL "shock"] q then 80
  else if anyKeyword [strL "alternator", strL "starter", strL "water pump",
      strL "fuel pump"] q then 120
  else if anyKeyword [strL "filter", strL "spark plug", strL "belt",
      strL "hose"] q then 25
  else if anyKeyword [strL "headlight", strL "taillight", strL "mirror",
      strL "handle"] q then 50
  else 60

/-- `_generate_realistic_auto_part_price(query, index)` in integer cents:
`round(base_price * (1 + index * 0.2), 2)` is exactly
`base_price * (100 + 20 * index)` cents. -/
def generate_realistic_auto_part_price (query : LC) (index : Nat) : Nat :=
  base_price query * (100 + 20 * index)

/-!  ## Product records and the synthetic example generator -/

/-- Optional year/make/model search refinement (`vehicle_info`).  A field
that the caller did not supply is the empty string, matching the falsy
check `vehicle_info.get(...)`. -/
structure VehicleInfo where
  year : LC
  make : LC
  model : LC
deriving DecidableEq

/-- One product record as assembled by `search_auto_parts` and its
helpers.  `price_numeric` is in integer cents.  `search_source`,
`original_query` and `vehicle_info` are `Option`s because the Python dict
only carries those keys on some code paths. -/
structure Product where
  title : LC
  price : LC
  price_numeric : Nat
  source : LC
  link : LC
  rating : LC
  reviews : LC
  part_type : LC
  image : LC
  search_source : Option LC
  original_query : Option LC
  vehicle_info : Option VehicleInfo
deriving DecidableEq

/-- The fixed retailer list used by `_get_auto_parts_examples`. -/
def exampleStores : List LC :=
  [strL "AutoZone", strL "Advance Auto Parts",
   strL "O" ++ [apos] ++ strL "Reilly Auto Parts",
   strL "NAPA", strL "RockAuto", strL "Amazon Automotive"]

/-- Title adjectives indexed by position in `_get_auto_parts_examples`. -/
def exampleAdjectives : List LC :=
  [strL "Premium", strL "OEM Quality", strL "Best Value",
   strL "Heavy Duty", strL "Performance", strL "Standard"]

/-- Ratings list of `_get_auto_parts_examples`. -/
def exampleRatings : List LC :=
  [strL "4.6", strL "4.4", strL "4.2", strL "4.5", strL "4.3", strL "4.1"]

/-- Review-count list of `_get_auto_parts_examples`. -/
def exampleReviews : List LC :=
  [strL "1200", strL "850", strL "600", strL "400", strL "300", strL "150"]

/-- Part-type list of `_get_auto_parts_examples`. -/
def examplePartTypes : List LC :=
  [strL "OEM", strL "Aftermarket", strL "OEM", strL "Aftermarket",
   strL "Premium", strL "Economy"]

/-- The store-specific outbound link built for entry `i` of the example
list. -/
def exampleLink (query : LC) (store : LC) : LC :=
  let search_query := quote_plus (strL "auto parts " ++ query.take 30)
  if store = strL "AutoZone" then
    strL "https://www.autozone.com/search?searchText=" ++ search_query
  else if store = strL "Advance Auto Parts" then
    strL "https://shop.advanceautoparts.com/find/?searchTerm=" ++ search_query
  else if store = strL "O" ++ [apos] ++ strL "Reilly Auto Parts" then
    strL "https://www.oreillyauto.com/search?q=" ++ search_query
  else if store = strL "NAPA" then
    strL "https://www.napaonline.com/search?query=" ++ search_query
  else if store = strL "RockAuto" then
    strL "https://www.rockauto.com/"
  else
    strL "https://www.amazon.com/s?k=automotive+" ++ search_query

/-- Entry `i` of the synthetic example list. -/
def exampleEntry (query : LC) (i : Nat) : Product :=
  let price := generate_realistic_auto_part_price query i
  let store := (exampleStores).getD (i % 6) []
  { title := clean_text query ++ strL " - " ++ (exampleAdjectives).getD i []
    price := formatCents price
    price_numeric := price
    source := store
    link := exampleLink query store
    rating := (exampleRatings).getD i []
    reviews := (exampleReviews).getD i []
    part_type := (examplePartTypes).getD (i % 6) []
    image := []
    search_source := some (strL "example")
    original_query := none
    vehicle_info := none }

/-- `AutoPartsFinder._get_auto_parts_examples`: six synthetic product
records for the given query. -/
def get_auto_parts_examples (query : LC) : List Product :=
  (List.range 6).map (exampleEntry query)

/-!  ## Building the effective query (`search_auto_parts`, first half) -/

/-- The ambient configuration and external-world behaviour that
`search_auto_parts` observes: availability flags, whether
`validate_image` accepts the uploaded bytes, the text Gemini would return
for them (`none` = analysis unavailable or failed), and the process-wide
string hash used for cache keys. -/
structure Env where
  gemini_ready : Bool
  pil_available : Bool
  api_key : Bool
  valid_image : Bool
  image_analysis : Option LC
  hashFn : LC → Int

/-- The arguments of one `search_auto_parts` call: the free-text query
(`none` = Python `None`), whether non-empty image bytes were passed, and
the optional vehicle descriptor. -/
structure SearchInput where
  query : Option LC
  image : Bool
  vehicle : Option VehicleInfo

/-- Python truthiness of the `query` argument (`None` and `""` are
falsy). -/
def qTruthy : Option LC → Bool
  | some q => !q.isEmpty
  | none => false

/-- `query or 'auto parts'`. -/
def queryOrDefault (q : Option LC) : LC :=
  if qTruthy q then q.getD [] else strL "auto parts"

/-- The `vehicle_part` prefix built from `vehicle_info`: each supplied
(non-empty) field followed by one space, in the order year, make,
model. -/
def vehicle_part : Option VehicleInfo → LC
  | none => []
  | some vi =>
      (if vi.year ≠ [] then vi.year ++ [' '] else []) ++
      (if vi.make ≠ [] then vi.make ++ [' '] else []) ++
      (if vi.model ≠ [] then vi.model ++ [' '] else [])

/-- The branch structure of `search_auto_parts` that determines
`final_query` and `search_source`.  Returns `(final_query, search_source)`;
`final_query = none` models the Python variable still being `None`
(image-only search whose Gemini analysis failed). -/
def buildQuerySource (env : Env) (inp : SearchInput) : Option LC × LC :=
  let vp := vehicle_part inp.vehicle
  if inp.image && env.gemini_ready && env.pil_available then
    if env.valid_image then
      if qTruthy inp.query then
        match env.image_analysis with
        | some iq =>
            (some (stripBoth (vp ++ inp.query.getD [] ++ [' '] ++ iq)), strL "combined")
        | none =>
            (some (stripBoth (vp ++ inp.query.getD [])), strL "text_fallback")
      else
        match env.image_analysis with
        | some iq => (some (stripBoth (vp ++ iq)), strL "image")
        | none => (none, strL "text")
    else
      (some (stripBoth (vp ++ queryOrDefault inp.query)), strL "text")
  else
    (some (stripBoth (vp ++ queryOrDefault inp.query)), strL "text")

/-!  ## The result cache -/

/-- One cache slot: `(key, (value, timestamp))`, mirroring
`self.cache[cache_key] = (final_products, time.time())`. -/
abbrev CacheEntry := Int × (List Product × Int)

/-- The cache dictionary, as an insertion-ordered association list with
(in all reachable states) pairwise-distinct keys. -/
abbrev Cache := List CacheEntry

/-- Dictionary lookup `self.cache[k]` / `k in self.cache`. -/
def cacheLookup (c : Cache) (k : Int) : Option (List Product × Int) :=
  (c.find? (fun e => decide (e.1 = k))).map (fun e => e.2)

/-- Dictionary store `self.cache[k] = v`: overwrite in place if the key
exists (keeping its position), otherwise append at the end. -/
def cacheInsert (c : Cache) (k : Int) (v : List Product × Int) : Cache :=
  if (c.find? (fun e => decide (e.1 = k))).isSome then
    c.map (fun e => if e.1 = k then (k, v) else e)
  else
    c ++ [(k, v)]

/-- `min(self.cache.keys(), key=lambda k: self.cache[k][1])`: the first
entry (in insertion order) with minimal timestamp. -/
def oldestEntry : Cache → Option CacheEntry
  | [] => none
  | e :: rest =>
      match oldestEntry rest with
      | none => some e
      | some m => if m.2.2 < e.2.2 then some m else some e

/-- `del self.cache[oldest_key]`. -/
def cacheEvict (c : Cache) : Cache :=
  match oldestEntry c with
  | none => c
  | some e => List.eraseP (fun x => decide (x.1 = e.1)) c

/-- The store-then-maybe-evict sequence at the end of
`search_auto_parts`: insert, then if the dict now has more than 15
entries delete the oldest one. -/
def cachePut (c : Cache) (k : Int) (v : List Product × Int) : Cache :=
  if 15 < (cacheInsert c k v).length then cacheEvict (cacheInsert c k v)
  else cacheInsert c k v

/-!  ## Processing SerpAPI results (`_extract_price`,
`_is_automotive_relevant`, `_get_valid_link`,
`_process_auto_parts_results`) -/

/-- Consume the `(?:,\d{3})*` part of the price regex: comma-separated
three-digit groups.  Returns the collected digits and the rest. -/
def takeCommaGroups : LC → LC × LC
  | ',' :: a :: b :: c :: rest =>
      if a.isDigit && b.isDigit && c.isDigit then
        let (g, r) := takeCommaGroups rest
        (a :: b :: c :: g, r)
      else ([], ',' :: a :: b :: c :: rest)
  | l => ([], l)

/-- Digits to a natural number. -/
def digitsToNat (ds : LC) : Nat :=
  ds.foldl (fun n c => n * 10 + (c.toNat - 48)) 0

/-- Try the regex `\$\s*(\d{1,4}(?:,\d{3})*(?:\.\d{2})?)` at the position
just after a `$`; result is the matched amount in cents.  The greedy
pieces never need to backtrack: once at least one digit is found the
remaining groups can always match empty. -/
def tryPriceMatch (l : LC) : Option Nat :=
  let l₁ := l.dropWhile pyWS
  let run := l₁.takeWhile Char.isDigit
  if run = [] then none
  else
    let d1 := run.take 4
    let after := l₁.drop d1.length
    let (groups, after₂) := takeCommaGroups after
    let frac :=
      match after₂ with
      | '.' :: a :: b :: _ => if a.isDigit && b.isDigit then digitsToNat [a, b] else 0
      | _ => 0
    let hasFrac :=
      match after₂ with
      | '.' :: a :: b :: _ => a.isDigit && b.isDigit
      | _ => false
    some (digitsToNat (d1 ++ groups) * 100 + (if hasFrac then frac else 0))

/-- `re.search` for the price pattern: leftmost match wins; a `$` not
followed by (whitespace and) digits is skipped and scanning resumes one
character later. -/
def scanPrice : LC → Option Nat
  | [] => none
  | c :: rest =>
      if c = '$' then
        match tryPriceMatch rest with
        | some v => some v
        | none => scanPrice rest
      else scanPrice rest

/-- `AutoPartsFinder._extract_price` in integer cents: first regex match,
kept only if between $1.00 and $2000.00, otherwise 0. -/
def extract_price (s : LC) : Nat :=
  match scanPrice s with
  | none => 0
  | some cents => if 100 ≤ cents ∧ cents ≤ 200000 then cents else 0

/-- One raw entry of the SerpAPI `shopping_results` list; every field is
optional because the Python code reads them with `item.get`. -/
structure ApiItem where
  title : Option LC
  price : Option LC
  source : Option LC
  snippet : Option LC
  product_link : Option LC
  link : Option LC
  rating : Option LC
  reviews : Option LC

/-- The automotive keyword allow-list of `_is_automotive_relevant`. -/
def automotiveKeywords : List LC :=
  [strL "auto", strL "car", strL "vehicle", strL "automotive", strL "motor",
   strL "engine", strL "brake", strL "filter", strL "spark", strL "battery",
   strL "alternator", strL "starter", strL "transmission", strL "suspension",
   strL "exhaust", strL "radiator", strL "fuel", strL "ignition",
   strL "clutch", strL "differential", strL "axle", strL "steering",
   strL "tire", strL "wheel", strL "part", strL "replacement", strL "oem",
   strL "aftermarket"]

/-- The vehicle makes of `VEHICLE_DATABASE['makes']`, in insertion
order. -/
def vehicleMakes : List LC :=
  [strL "chevrolet", strL "ford", strL "toyota", strL "honda", strL "nissan",
   strL "jeep", strL "ram", strL "gmc", strL "hyundai", strL "kia",
   strL "volkswagen", strL "subaru", strL "bmw", strL "mercedes", strL "audi"]

/-- `AutoPartsFinder.preferred_stores`. -/
def preferredStores : List LC :=
  [strL "autozone", strL "advance auto parts", strL "oreilly", strL "napa",
   strL "pepboys", strL "rock auto", strL "car parts",
   strL "auto parts warehouse", strL "parts geek", strL "amazon automotive",
   strL "walmart automotive", strL "jegs", strL "summit racing"]

/-- `AutoPartsFinder._is_automotive_relevant`. -/
def is_automotive_relevant (it : ApiItem) : Bool :=
  let title := toLowerL (it.title.getD [])
  let source := toLowerL (it.source.getD [])
  let snippet := toLowerL (it.snippet.getD [])
  let text := title ++ [' '] ++ source ++ [' '] ++ snippet
  anyKeyword automotiveKeywords text || anyKeyword vehicleMakes text ||
    preferredStores.any (fun s => containsSub s source)

/-- `AutoPartsFinder._get_valid_link`. -/
def get_valid_link (it : ApiItem) : LC :=
  if it.product_link.getD [] ≠ [] then it.product_link.getD []
  else if it.link.getD [] ≠ [] then it.link.getD []
  else if it.title.getD [] ≠ [] then
    strL "https://www.google.com/search?tbm=shop&q=" ++
      quote_plus (strL "auto parts " ++ (it.title.getD []).take 50)
  else strL "#"

/-- The body of the `_process_auto_parts_results` loop for one item,
given the products accumulated so far. -/
def processItem (acc : List Product) (it : ApiItem) : List Product :=
  if !is_automotive_relevant it then acc
  else
    let title := it.title.getD []
    if title = [] || title.length < 5 then acc
    else
      let price_str := it.price.getD []
      let p₀ := extract_price price_str
      let price_num := if p₀ = 0 then generate_realistic_auto_part_price title acc.length else p₀
      let price_disp := if p₀ = 0 then formatCents price_num else price_str
      let part_type :=
        if anyKeyword [strL "oem", strL "genuine", strL "original"] (toLowerL title)
        then strL "OEM" else strL "Aftermarket"
      acc ++ [{ title := clean_text title
                price := price_disp
                price_numeric := price_num
                source := clean_text (it.source.getD (strL "Auto Parts Store"))
                link := get_valid_link it
                rating := it.rating.getD []
                reviews := it.reviews.getD []
                part_type := part_type
                image := []
                search_source := none
                original_query := none
                vehicle_info := none }]

/-- The `_process_auto_parts_results` loop with its early `break` once six
products are collected.  List elements are `Option`s because the Python
list may contain falsy items (`if not item: continue`). -/
def processLoop : List (Option ApiItem) → List Product → List Product
  | [], acc => acc
  | item :: rest, acc =>
      match item with
      | none => processLoop rest acc
      | some it =>
          let acc₂ := processItem acc it
          if 6 ≤ acc₂.length then acc₂ else processLoop rest acc₂

/-- `AutoPartsFinder._process_auto_parts_results` for the
`google_shopping` engine; `none` models a failed request or a response
without the `shopping_results` key. -/
def process_auto_parts_results (data : Option (List (Option ApiItem))) : List Product :=
  match data with
  | none => []
  | some items => processLoop items []

/-!  ## `search_auto_parts`: API path, sorting, metadata, cache -/

/-- The SerpAPI response as observed by one search call (`none` = request
failed, non-200 status, or missing `shopping_results`). -/
abbrev ApiData := Option (List (Option ApiItem))

/-- The metadata stamped onto each returned product on the API path:
`search_source`, `original_query` (the literal text, or `"imagen"` when no
text was given) and `vehicle_info`. -/
def addMetadata (tag : LC) (inp : SearchInput) (p : Product) : Product :=
  { p with
    search_source := some tag
    original_query := some (if qTruthy inp.query then inp.query.getD [] else strL "imagen")
    vehicle_info := inp.vehicle }

/-- Price-ascending comparison used by
`all_products.sort(key=lambda x: x['price_numeric'])`. -/
def priceLe (a b : Product) : Bool := a.price_numeric ≤ b.price_numeric

/-- The fresh (non-cached) computation of the API path of
`search_auto_parts`: process the Google-Shopping response, fall back to
the synthetic examples when it is empty, sort by numeric price (Python's
`list.sort` is a stable ascending sort, as is `List.mergeSort`), keep the
first six, and stamp the metadata. -/
def computeFresh (inp : SearchInput) (fq : LC) (tag : LC) (api : ApiData) : List Product :=
  let products := process_auto_parts_results api
  let all_products := if products = [] then get_auto_parts_examples fq else products
  ((all_products.mergeSort priceLe).take 6).map (addMetadata tag inp)

/-- The cache key `f"autoparts_{hash(final_query.lower())}"`, identified
with the hash value itself (the constant prefix is injective). -/
def queryKeyOf (env : Env) (fq : LC) : Int := env.hashFn (toLowerL fq)

/-- `AutoPartsFinder.search_auto_parts`.  Inputs: the environment, the
call arguments, the current cache, the current clock (`time.time()`, in
whole seconds as `Int`) and the SerpAPI response this call would receive.
Returns the product list and the cache afterwards.  The guard
`time.time() - start_time < 8` around the single API request is always
true (the clock is read immediately after being set) and is therefore
elided. -/
def search_auto_parts (env : Env) (inp : SearchInput) (st : Cache) (now : Int)
    (api : ApiData) : List Product × Cache :=
  match buildQuerySource env inp with
  | (none, _) => (get_auto_parts_examples (strL "brake pads"), st)
  | (some fq, tag) =>
      if fq.length < 2 then (get_auto_parts_examples (strL "brake pads"), st)
      else if !env.api_key then (get_auto_parts_examples fq, st)
      else
        match cacheLookup st (queryKeyOf env fq) with
        | some (v, ts) =>
            if now - ts < 300 then (v, st)
            else (computeFresh inp fq tag api,
                  cachePut st (queryKeyOf env fq) (computeFresh inp fq tag api, now))
        | none =>
            (computeFresh inp fq tag api,
             cachePut st (queryKeyOf env fq) (computeFresh inp fq tag api, now))

/-!  ## The `/api/search-parts` handler (`api_search_parts`) -/

/-- The uploaded file as the handler sees it: its filename, whether
`.read()` raises, and (through `Env.valid_image`) whether
`validate_image` accepts the bytes. -/
structure ImageUpload where
  filename : LC
  readFails : Bool

/-- One POST request to `/api/search-parts`: raw form fields (before the
handler strips them) and the optional file field. -/
structure ApiRequest where
  query : LC
  image : Option ImageUpload
  vehicle_year : LC
  vehicle_make : LC
  vehicle_model : LC

/-- The `search_info` object of a successful response. -/
structure SearchInfo where
  query : LC
  has_image : Bool
  vehicle : Option LC
  source : LC
deriving DecidableEq

/-- The JSON value returned by the handler. -/
inductive ApiResponse where
  | failure (message : LC)
  | success (products : List Product) (info : SearchInfo) (count : Nat)
deriving DecidableEq

/-- Python `str.title()` (ASCII): upper-case a letter that follows a
non-letter, lower-case the other letters. -/
def pyTitleGo : Bool → LC → LC
  | _, [] => []
  | prevAlpha, c :: t =>
      (if c.isAlpha then (if prevAlpha then c.toLower else c.toUpper) else c) ::
        pyTitleGo c.isAlpha t

/-- Python `str.title()`. -/
def pyTitle (l : LC) : LC := pyTitleGo false l

/-- Python `str.upper()` (ASCII). -/
def pyUpper (l : LC) : LC := l.map Char.toUpper

/-- The `vehicle` display string of `search_info`. -/
def searchInfoVehicle (vi : VehicleInfo) : Option LC :=
  if vi.year ≠ [] ∨ vi.make ≠ [] ∨ vi.model ≠ [] then
    some (List.intercalate [' ']
      ((if vi.year ≠ [] then [vi.year] else []) ++
       (if vi.make ≠ [] then [pyTitle vi.make] else []) ++
       (if vi.model ≠ [] then [pyUpper vi.model] else [])))
  else none

/-- The part of the `api_search_parts` handler after the image block:
vehicle assembly, input validation, the search call and the response
assembly. -/
def api_search_parts_rest (env : Env) (finder : Bool) (req : ApiRequest) (query : LC)
    (hasImage : Bool) (st : Cache) (now : Int) (api : ApiData) :
    ApiResponse × Cache :=
  let vy := stripBoth req.vehicle_year
  let vm := stripBoth req.vehicle_make
  let vmo := stripBoth req.vehicle_model
  let vehicle_info : Option VehicleInfo :=
    if vy ≠ [] ∨ vm ≠ [] ∨ vmo ≠ [] then some ⟨vy, vm, vmo⟩ else none
  if query = [] ∧ hasImage = false then
    (ApiResponse.failure (strL "Proporciona un término de búsqueda o una imagen"), st)
  else if !finder then
    (ApiResponse.failure (strL "Servicio de búsqueda no disponible"), st)
  else
    let (products, st₂) :=
      search_auto_parts env ⟨some query, hasImage, vehicle_info⟩ st now api
    let info : SearchInfo :=
      { query := query
        has_image := hasImage
        vehicle := match vehicle_info with
          | some vi => searchInfoVehicle vi
          | none => none
        source := match products.head? with
          | some p => p.search_source.getD (strL "unknown")
          | none => strL "none" }
    (ApiResponse.success products info products.length, st₂)

/-- The `api_search_parts` request handler.  `finder` models the global
`auto_parts_finder` instance being available.  Returns the JSON response
and the cache afterwards. -/
def api_search_parts (env : Env) (finder : Bool) (req : ApiRequest) (st : Cache)
    (now : Int) (api : ApiData) : ApiResponse × Cache :=
  let query := stripBoth req.query
  match req.image with
  | some img =>
      if img.filename ≠ [] then
        if img.readFails then (ApiResponse.failure (strL "Error procesando la imagen"), st)
        else if !env.valid_image then
          (ApiResponse.failure (strL "Imagen inválida. Use JPEG, PNG o WEBP."), st)
        else api_search_parts_rest env finder req query true st now api
      else api_search_parts_rest env finder req query false st now api
  | none => api_search_parts_rest env finder req query false st now api

/-!  ## Firebase login (`FirebaseAuth.login_user`) -/

/-- What the Firebase identity endpoint did: HTTP success carrying the
identity fields, an HTTP error whose JSON error message is
`some (some m)` / missing (`some none`) / unparseable (`none`), or any
other exception (timeout, connection error, unexpected). -/
inductive FirebaseResp where
  | ok (localId : LC) (emailR : LC) (displayName : Option LC) (idToken : LC)
  | httpErr (json : Option (Option LC))
  | exn

/-- The identity record stored in the session on success. -/
structure UserData where
  user_id : LC
  email : LC
  display_name : LC
  id_token : LC
deriving DecidableEq

/-- The dict returned by `login_user`. -/
structure LoginResult where
  success : Bool
  message : LC
  user_data : Option UserData
  error_code : Option LC
deriving DecidableEq

/-- `FirebaseAuth.login_user`, with the identity provider's behaviour as
an explicit input. -/
def login_user (keyConfigured : Bool) (resp : FirebaseResp) (email _password : LC) :
    LoginResult :=
  if !keyConfigured then
    { success := false, message := strL "Servicio no configurado",
      user_data := none, error_code := some (strL "SERVICE_NOT_CONFIGURED") }
  else
    match resp with
    | .ok localId emailR displayName idToken =>
        { success := true
          message := strL "Bienvenido! Has iniciado sesion correctamente."
          user_data := some
            { user_id := localId, email := emailR
              display_name := displayName.getD (email.takeWhile (fun c => c ≠ '@'))
              id_token := idToken }
          error_code := none }
    | .httpErr json =>
        match json with
        | none =>
            { success := false, message := strL "Error de conexion",
              user_data := none, error_code := some (strL "CONNECTION_ERROR") }
        | some m =>
            let msg := m.getD (strL "ERROR")
            if containsSub (strL "INVALID") msg || containsSub (strL "EMAIL_NOT_FOUND") msg then
              { success := false, message := strL "Correo o contraseña incorrectos",
                user_data := none, error_code := some (strL "INVALID_CREDENTIALS") }
            else if containsSub (strL "TOO_MANY_ATTEMPTS") msg then
              { success := false, message := strL "Demasiados intentos fallidos",
                user_data := none, error_code := some (strL "TOO_MANY_ATTEMPTS") }
            else
              { success := false, message := strL "Error de autenticacion",
                user_data := none, error_code := some (strL "FIREBASE_ERROR") }
    | .exn =>
        { success := false, message := strL "Error interno del servidor",
          user_data := none, error_code := some (strL "UNEXPECTED_ERROR") }

/-!  ## Session clearing (`FirebaseAuth.clear_user_session`) -/

/-- The Flask session, as an association list from keys to values of an
arbitrary type. -/
abbrev Session (α : Type) := List (LC × α)

/-- Session lookup (`session.get(k)` for a present key). -/
def sessionLookup {α : Type} (s : Session α) (k : LC) : Option α :=
  (s.find? (fun e => decide (e.1 = k))).map (fun e => e.2)

/-- `FirebaseAuth.clear_user_session`: save the `timestamp` entry if
present, clear everything, restore it. -/
def clear_user_session {α : Type} (s : Session α) : Session α :=
  match s.find? (fun e => decide (e.1 = strL "timestamp")) with
  | some e => [(strL "timestamp", e.2)]
  | none => []

/-!  ## The ethical scraper's HTTP stack (`EthicalWebScraper.__init__`
and `EthicalWebScraper.make_request`)

`__init__` mounts an `HTTPAdapter` with
`Retry(total=3, backoff_factor=1, status_forcelist=[429,500,502,503,504],
allowed_methods=["HEAD","GET","OPTIONS"])` on `self.session`, so every
`self.session.request` the scraper issues (always a GET, which is in
`allowed_methods`) already retries at the transport level before
`make_request`'s own code runs:
* one low-level attempt that fails with a connection/read error or
  returns a status in the force-list is retried, up to `total = 3`
  retries per request;
* the back-off slept before the i-th retry is
  `backoff_factor * 2^(i-1)` seconds, except that the first retry sleeps
  0 (urllib3 `Retry.get_backoff_time`), i.e. 0 s, 2 s, 4 s here;
* with the retry budget exhausted (or on a non-retryable exception) the
  request raises (`raise_on_status` defaults to true), surfacing as a
  `RequestException`; a force-list status is therefore never returned to
  the caller, so `make_request`'s own `status_code == 429` branch (sleep
  60 s and recurse) can never run.
-/

/-- One low-level HTTP attempt as the mounted adapter sees it: a
response with a status code, a retryable connection/read error, or a
non-retryable exception that is raised immediately. -/
inductive Attempt where
  | status (code : Nat) (body : LC)
  | netErr
  | fatal
deriving DecidableEq

/-- The `status_forcelist` of the `Retry` strategy. -/
def retryableStatus (c : Nat) : Bool :=
  c = 429 || c = 500 || c = 502 || c = 503 || c = 504

/-- Whether the transport retries this attempt (GET is in
`allowed_methods`, so force-list statuses qualify; connection/read
errors are retryable for an idempotent method). -/
def attemptRetryable : Attempt → Bool
  | .status c _ => retryableStatus c
  | .netErr => true
  | .fatal => false

/-- What one `self.session.request(...)` call does after the adapter's
retrying: return a (never force-list) response, or raise. -/
inductive TransportResult where
  | resp (code : Nat) (body : LC)
  | raised
deriving DecidableEq

/-- Result of one transport-level request: outcome, the unconsumed
attempt stream, the number of low-level attempts made, and the seconds
slept by the adapter's back-off. -/
structure TransportOutcome where
  result : TransportResult
  rest : List Attempt
  attempts : Nat
  slept : Nat
deriving DecidableEq

/-- urllib3 `Retry.get_backoff_time` before the i-th consecutive retry
with `backoff_factor = 1`: zero for the first retry, then `2^(i-1)`. -/
def transportBackoff (i : Nat) : Nat :=
  if i ≤ 1 then 0 else 2 ^ (i - 1)

/-- The adapter's retry loop for one request, consuming low-level
attempt outcomes from the front of the stream; `retriesDone` counts the
retries already spent of the `total = 3` budget. -/
def sessionRequestGo : List Attempt → Nat → TransportOutcome
  | [], _ => ⟨.raised, [], 0, 0⟩
  | a :: rest, retriesDone =>
      if attemptRetryable a then
        if retriesDone = 3 then ⟨.raised, rest, 1, 0⟩
        else
          ⟨(sessionRequestGo rest (retriesDone + 1)).result,
           (sessionRequestGo rest (retriesDone + 1)).rest,
           (sessionRequestGo rest (retriesDone + 1)).attempts + 1,
           (sessionRequestGo rest (retriesDone + 1)).slept +
             transportBackoff (retriesDone + 1)⟩
      else
        match a with
        | .status c b => ⟨.resp c b, rest, 1, 0⟩
        | _ => ⟨.raised, rest, 1, 0⟩

/-- One `self.session.request(...)` call with a fresh retry budget. -/
def sessionRequest (attempts : List Attempt) : TransportOutcome :=
  sessionRequestGo attempts 0

/-- Observable behaviour of one `make_request` call: the returned
response (`none` for every failure), how many times `session.request`
was invoked, how many low-level HTTP attempts were made, the seconds
slept by the adapter's back-off, and the seconds slept by the in-code
60-second 429 branch. -/
structure ReqResult where
  response : Option LC
  sessionCalls : Nat
  attempts : Nat
  transportSleep : Nat
  sleep60 : Nat
deriving DecidableEq

/-- The body of `make_request` around `session.request`: an exception is
caught and yields `None`; a surfaced 429 sleeps 60 s and re-enters the
routine; `raise_for_status` turns any other 4xx/5xx into a caught
exception; otherwise the response is returned.  The recursion is given
`attempts.length + 1` fuel, which no execution can exhaust: the 429
branch requires the transport to surface a force-list status, which it
never does (see `C8_amended_transport_retry`), and each iteration of a
non-empty stream consumes at least one attempt. -/
def makeRequestLoop : Nat → List Attempt → Nat → Nat → Nat → Nat → ReqResult
  | 0, _, calls, used, ts, s60 => ⟨none, calls, used, ts, s60⟩
  | fuel + 1, attempts, calls, used, ts, s60 =>
      match sessionRequest attempts with
      | ⟨.raised, _, a, sl⟩ => ⟨none, calls + 1, used + a, ts + sl, s60⟩
      | ⟨.resp c b, rest, a, sl⟩ =>
          if c = 429 then
            makeRequestLoop fuel rest (calls + 1) (used + a) (ts + sl) (s60 + 60)
          else if 400 ≤ c ∧ c < 600 then ⟨none, calls + 1, used + a, ts + sl, s60⟩
          else ⟨some b, calls + 1, used + a, ts + sl, s60⟩

/-- `EthicalWebScraper.make_request`: robots.txt denial returns `None`
without any request; otherwise one `session.request` runs (the in-code
429 recursion being unreachable). -/
def make_request (allowed : Bool) (attempts : List Attempt) : ReqResult :=
  if allowed then makeRequestLoop (attempts.length + 1) attempts 0 0 0 0
  else ⟨none, 0, 0, 0, 0⟩

/-- The value `make_request` produces from a non-retryable attempt that
the transport surfaces: a response outside 400–599 is returned, any
other surfaced outcome becomes `None`. -/
def surfaceResult : Attempt → Option LC
  | .status c b => if 400 ≤ c ∧ c < 600 then none else some b
  | .netErr => none
  | .fatal => none

/-- The transport-level outcome of a surfaced non-retryable attempt. -/
def surfaceTransport : Attempt → TransportResult
  | .status c b => .resp c b
  | _ => .raised

/-- Total adapter back-off for `k` consecutive retries whose first
retry is the `(n+1)`-th of the request. -/
def sleptFrom : Nat → Nat → Nat
  | _, 0 => 0
  | n, k + 1 => transportBackoff (n + 1) + sleptFrom (n + 1) k

/-!  ## Helper predicates and lemmas -/

/-- The first character (if any) is not whitespace, so `lstrip` leaves
the string alone. -/
def headNotWS : LC → Bool
  | [] => true
  | c :: _ => !pyWS c

/-- At least one non-whitespace character, so `rstrip` cannot cross into
whatever precedes the string. -/
def hasNonWS (l : LC) : Bool := l.any (fun c => !pyWS c)

theorem headNotWS_append {a b : LC} (ha : headNotWS a = true) (hb : headNotWS b = true) :
    headNotWS (a ++ b) = true := by
  cases a with
  | nil => simpa using hb
  | cons c t => simpa [headNotWS] using ha

theorem headNotWS_field {f : LC} (hf : headNotWS f = true) :
    f ≠ [] → headNotWS (f ++ [' ']) = true := by
  cases f with
  | nil => intro h; exact absurd rfl h
  | cons c t => intro _; simpa [headNotWS] using hf

theorem headNotWS_vehicle_part {vi : VehicleInfo}
    (hy : headNotWS vi.year = true) (hm : headNotWS vi.make = true)
    (hmo : headNotWS vi.model = true) :
    headNotWS (vehicle_part (some vi)) = true := by
  unfold vehicle_part
  refine headNotWS_append (headNotWS_append ?_ ?_) ?_ <;> split
  · exact headNotWS_field hy (by assumption)
  · rfl
  · exact headNotWS_field hm (by assumption)
  · rfl
  · exact headNotWS_field hmo (by assumption)
  · rfl

theorem hasNonWS_append_left {a : LC} (b : LC) (ha : hasNonWS a = true) :
    hasNonWS (a ++ b) = true := by
  unfold hasNonWS at ha ⊢
  rw [List.any_append, ha, Bool.true_or]

theorem dropWhile_append_of_exists {p : Char → Bool} {l₁ : LC} (l₂ : LC)
    (h : l₁.any (fun c => !p c) = true) :
    List.dropWhile p (l₁ ++ l₂) = List.dropWhile p l₁ ++ l₂ := by
  induction l₁ with
  | nil => simp at h
  | cons a t ih =>
      by_cases hpa : p a = true
      · have ht : t.any (fun c => !p c) = true := by
          simp only [List.any_cons, hpa, Bool.not_true, Bool.false_or] at h
          exact h
        simp [List.dropWhile_cons, hpa, ih ht]
      · simp [List.dropWhile_cons, hpa]

theorem stripLeft_append_of_head {vp : LC} (t : LC)
    (hne : vp ≠ []) (hh : headNotWS vp = true) :
    stripLeft (vp ++ t) = vp ++ t := by
  cases vp with
  | nil => exact absurd rfl hne
  | cons c cs =>
      have : pyWS c = false := by simpa [headNotWS] using hh
      simp [stripLeft, List.dropWhile_cons, this]

theorem stripRight_append {vp t : LC} (h : hasNonWS t = true) :
    stripRight (vp ++ t) = vp ++ stripRight t := by
  have h₀ : t.any (fun c => !pyWS c) = true := h
  have hrev : t.reverse.any (fun c => !pyWS c) = true := by
    rw [List.any_reverse]
    exact h₀
  simp only [stripRight, List.reverse_append]
  rw [dropWhile_append_of_exists vp.reverse hrev]
  simp

theorem stripBoth_append {vp t : LC} (hne : vp ≠ []) (hh : headNotWS vp = true)
    (ht : hasNonWS t = true) :
    stripBoth (vp ++ t) = vp ++ stripRight t := by
  unfold stripBoth
  rw [stripLeft_append_of_head t hne hh, stripRight_append ht]

/-- All keyword buckets of the price heuristic are positive. -/
theorem base_price_pos (q : LC) : 0 < base_price q := by
  simp only [base_price]
  split
  · norm_num
  · split
    · norm_num
    · split
      · norm_num
      · split
        · norm_num
        · split
          · norm_num
          · norm_num

theorem generate_price_pos (q : LC) (i : Nat) :
    0 < generate_realistic_auto_part_price q i :=
  Nat.mul_pos (base_price_pos q) (by omega)

theorem append_ne_nil_left {a : LC} (b : LC) (ha : a ≠ []) : a ++ b ≠ [] := by
  cases a with
  | nil => exact absurd rfl ha
  | cons c t => simp

/-- Every store-specific example link is non-empty: each branch starts
with a non-empty URL literal. -/
theorem exampleLink_ne_nil (q store : LC) : exampleLink q store ≠ [] := by
  simp only [exampleLink]
  split
  · exact append_ne_nil_left _ (by decide)
  · split
    · exact append_ne_nil_left _ (by decide)
    · split
      · exact append_ne_nil_left _ (by decide)
      · split
        · exact append_ne_nil_left _ (by decide)
        · split
          · decide
          · exact append_ne_nil_left _ (by decide)

/-!  ## C1 -/

/-- C1: `_get_auto_parts_examples` returns, for every query string, a
list of exactly six product records, each with a strictly positive
`price_numeric`, a non-empty `source` store name, and a non-empty
`link`. -/
theorem C1_examples_shape (q : LC) :
    (get_auto_parts_examples q).length = 6 ∧
    ∀ p ∈ get_auto_parts_examples q,
      0 < p.price_numeric ∧ p.source ≠ [] ∧ p.link ≠ [] := by
  constructor
  · simp [get_auto_parts_examples]
  · intro p hp
    simp only [get_auto_parts_examples, List.mem_map, List.mem_range] at hp
    obtain ⟨i, hi, rfl⟩ := hp
    refine ⟨generate_price_pos q i, ?_, ?_⟩
    · show exampleStores.getD (i % 6) [] ≠ []
      interval_cases i <;> decide
    · exact exampleLink_ne_nil q _

/-- Witness for C1 at the concrete query "oil filter" and the first
generated record. -/
theorem C1_witness :
    0 < (exampleEntry (strL "oil filter") 0).price_numeric ∧
    (exampleEntry (strL "oil filter") 0).source ≠ [] ∧
    (exampleEntry (strL "oil filter") 0).link ≠ [] :=
  (C1_examples_shape (strL "oil filter")).2 (exampleEntry (strL "oil filter") 0)
    (by simp [get_auto_parts_examples]; exact ⟨0, by norm_num, rfl⟩)

/-!  ## C2 -/

/-- The C2 scenario environment: no search API key, no image facilities
in play. -/
def c2Env : Env := ⟨false, false, false, false, none, fun _ => 0⟩

/-- The C2 scenario call: query "brake pads", no image, vehicle
2015 / chevrolet / silverado. -/
def c2Inp : SearchInput :=
  ⟨some (strL "brake pads"), false,
   some ⟨strL "2015", strL "chevrolet", strL "silverado"⟩⟩

/-- The products the C2 scenario returns (cache empty, clock 0; neither
matters on the no-API-key path). -/
def c2Products : List Product := (search_auto_parts c2Env c2Inp [] 0 none).1

/-- C2 (counterexample): in the stated scenario the effective query and
the shape of the results are as claimed, but the titles contain the
user's literal text "brake pads", not the capitalized string
"Brake Pads"; the claim's conjunction is false. -/
theorem C2_counterexample :
    ¬ ((buildQuerySource c2Env c2Inp).1 =
          some (strL "2015 chevrolet silverado brake pads") ∧
        c2Products.length = 6 ∧
        (∀ p ∈ c2Products, containsSub (strL "Brake Pads") p.title = true) ∧
        (∀ p ∈ c2Products, 2999 ≤ p.price_numeric ∧ p.price_numeric ≤ 19999) ∧
        (c2Products.map (fun p => p.source)).Nodup ∧
        (∀ p ∈ c2Products, p.source ∈ exampleStores)) := by
  intro h
  have hmem : exampleEntry (strL "2015 chevrolet silverado brake pads") 0 ∈ c2Products := by
    decide
  have := h.2.2.1 _ hmem
  revert this
  decide

/-- C2 (amended): same scenario, with the titles containing the query
text "brake pads" exactly as the user typed it (lower-case). -/
theorem C2_amended_scenario :
    (buildQuerySource c2Env c2Inp).1 =
        some (strL "2015 chevrolet silverado brake pads") ∧
    c2Products.length = 6 ∧
    (∀ p ∈ c2Products, containsSub (strL "brake pads") p.title = true) ∧
    (∀ p ∈ c2Products, 2999 ≤ p.price_numeric ∧ p.price_numeric ≤ 19999) ∧
    (c2Products.map (fun p => p.source)).Nodup ∧
    (∀ p ∈ c2Products, p.source ∈ exampleStores) := by
  decide

/-!  ## C3 -/

/-- The whole vehicle prefix survives as a prefix of the stripped
concatenation provided it starts with a non-whitespace character and the
appended text has some non-whitespace character. -/
theorem prefix_of_stripBoth {vp : LC} (t : LC) (hne : vp ≠ [])
    (hh : headNotWS vp = true) (ht : hasNonWS t = true) :
    vp <+: stripBoth (vp ++ t) := by
  rw [stripBoth_append hne hh ht]
  exact List.prefix_append _ _

theorem hasNonWS_queryOrDefault {q : Option LC}
    (hq : ∀ x, q = some x → x ≠ [] → hasNonWS x = true) :
    hasNonWS (queryOrDefault q) = true := by
  unfold queryOrDefault
  split
  · rename_i ht
    cases hq0 : q with
    | none => rw [hq0] at ht; exact absurd ht (by decide)
    | some x =>
        rw [hq0] at ht
        have hx : x ≠ [] := by
          simpa [qTruthy, List.isEmpty_iff] using ht
        simpa [hq0] using hq x hq0 hx
  · decide

/-- The counterexample's vehicle descriptor: a non-empty but
whitespace-only year. -/
def c3CVi : VehicleInfo := ⟨strL " ", strL "ford", []⟩

/-- The counterexample's search call. -/
def c3CInp : SearchInput := ⟨some (strL "pads"), false, some c3CVi⟩

/-- The counterexample's environment (no image machinery involved). -/
def c3CEnv : Env := ⟨false, false, false, false, none, fun _ => 0⟩

/-- C3 (counterexample): with a non-empty (whitespace-only) year field,
the final `strip()` removes the year, so the effective query does not
start with the vehicle fields. -/
theorem C3_counterexample :
    c3CVi.year ≠ [] ∧ c3CVi.make ≠ [] ∧
    (buildQuerySource c3CEnv c3CInp).1 = some (strL "ford pads") ∧
    ¬ vehicle_part c3CInp.vehicle <+: strL "ford pads" := by
  refine ⟨by decide, by decide, by decide, by decide⟩

/-- C3 (amended): if each supplied vehicle field starts with a
non-whitespace character and the free text (and any image-derived text)
is not entirely whitespace, the effective query starts with exactly the
vehicle fields, year then make then model, each followed by a space; in
the no-image case what follows that prefix is exactly the user's free
text (right-stripped; `'auto parts'` when the free text is empty). -/
theorem C3_amended_vehicle_fields_first (env : Env) (inp : SearchInput) (vi : VehicleInfo)
    (hv : inp.vehicle = some vi)
    (hy : headNotWS vi.year = true) (hm : headNotWS vi.make = true)
    (hmo : headNotWS vi.model = true)
    (hq : ∀ x, inp.query = some x → x ≠ [] → hasNonWS x = true)
    (hiq : ∀ t, env.image_analysis = some t → hasNonWS t = true)
    (fq : LC) (hfq : (buildQuerySource env inp).1 = some fq) :
    vehicle_part inp.vehicle <+: fq ∧
    (inp.image = false → vehicle_part inp.vehicle ≠ [] →
      fq = vehicle_part inp.vehicle ++ stripRight (queryOrDefault inp.query)) := by
  have hvp : headNotWS (vehicle_part inp.vehicle) = true := by
    rw [hv]
    exact headNotWS_vehicle_part hy hm hmo
  have hqd : hasNonWS (queryOrDefault inp.query) = true := hasNonWS_queryOrDefault hq
  by_cases hvpnil : vehicle_part inp.vehicle = []
  · refine ⟨by rw [hvpnil]; exact List.nil_prefix, ?_⟩
    intro _ hne
    exact absurd hvpnil hne
  · have hqT : qTruthy inp.query = true → hasNonWS (inp.query.getD []) = true := by
      intro ht
      cases hq0 : inp.query with
      | none => rw [hq0] at ht; exact absurd ht (by decide)
      | some x =>
          rw [hq0] at ht
          have hx : x ≠ [] := by
            simpa [qTruthy, List.isEmpty_iff] using ht
          simpa [hq0] using hq x hq0 hx
    simp only [buildQuerySource] at hfq
    split at hfq
    · -- image path taken
      rename_i himg
      have himgT : inp.image = true := by
        cases hIm : inp.image
        · rw [hIm] at himg; simp at himg
        · rfl
      refine And.intro ?_ (fun h0 _ => by rw [himgT] at h0; cases h0)
      split at hfq
      · split at hfq
        · -- text and image
          cases han : env.image_analysis with
          | some iq =>
              rw [han] at hfq
              simp only at hfq
              rename_i hqt
              have hfq' : stripBoth
                  (vehicle_part inp.vehicle ++
                    (inp.query.getD [] ++ [' '] ++ iq)) = fq := by
                have := Option.some.inj hfq
                rw [← this]
                simp [List.append_assoc]
              rw [← hfq']
              exact prefix_of_stripBoth _ hvpnil hvp
                (hasNonWS_append_left _ (hasNonWS_append_left _ (hqT hqt)))
          | none =>
              rw [han] at hfq
              simp only at hfq
              rename_i hqt
              have hfq' : stripBoth (vehicle_part inp.vehicle ++ inp.query.getD []) = fq :=
                Option.some.inj hfq
              rw [← hfq']
              exact prefix_of_stripBoth _ hvpnil hvp (hqT hqt)
        · -- image only
          cases han : env.image_analysis with
          | some iq =>
              rw [han] at hfq
              simp only at hfq
              have hfq' : stripBoth (vehicle_part inp.vehicle ++ iq) = fq :=
                Option.some.inj hfq
              rw [← hfq']
              exact prefix_of_stripBoth _ hvpnil hvp (hiq iq han)
          | none => rw [han] at hfq; simp at hfq
      · -- invalid image: text query used
        have hfq' : stripBoth (vehicle_part inp.vehicle ++ queryOrDefault inp.query) = fq :=
          Option.some.inj hfq
        rw [← hfq']
        exact prefix_of_stripBoth _ hvpnil hvp hqd
    · -- pure text path
      have hfq' : stripBoth (vehicle_part inp.vehicle ++ queryOrDefault inp.query) = fq :=
        Option.some.inj hfq
      constructor
      · rw [← hfq']
        exact prefix_of_stripBoth _ hvpnil hvp hqd
      · intro _ _
        rw [← hfq', stripBoth_append hvpnil hvp hqd]

/-- Witness for C3 (amended) at the 2015 Chevrolet Silverado brake-pads
scenario. -/
theorem C3_witness :
    vehicle_part (some ⟨strL "2015", strL "chevrolet", strL "silverado"⟩) <+:
      strL "2015 chevrolet silverado brake pads" :=
  (C3_amended_vehicle_fields_first ⟨false, false, false, false, none, fun _ => 0⟩
    ⟨some (strL "brake pads"), false,
      some ⟨strL "2015", strL "chevrolet", strL "silverado"⟩⟩
    ⟨strL "2015", strL "chevrolet", strL "silverado"⟩ rfl
    (by decide) (by decide) (by decide)
    (fun x hx _ => by cases Option.some.inj hx; decide)
    (fun t ht => by cases ht)
    (strL "2015 chevrolet silverado brake pads") (by decide)).1

/-!  ## C4 -/

/-- C4: a POST to the search endpoint with an empty query field and no
image is rejected with a user-facing error message and leaves the cache
untouched; since the environment, the finder instance and the search-API
response are arbitrary on the left and absent on the right, no search is
performed. -/
theorem C4_reject_empty (env : Env) (finder : Bool) (req : ApiRequest) (st : Cache)
    (now : Int) (api : ApiData) (hq : req.query = []) (hi : req.image = none) :
    api_search_parts env finder req st now api =
      (ApiResponse.failure (strL "Proporciona un término de búsqueda o una imagen"), st) ∧
    strL "Proporciona un término de búsqueda o una imagen" ≠ [] := by
  constructor
  · simp only [api_search_parts, hi]
    simp only [api_search_parts_rest, hq]
    norm_num [stripBoth, stripLeft, stripRight]
  · decide

/-- Witness for C4 at a concrete empty request. -/
theorem C4_witness :
    api_search_parts ⟨false, false, false, false, none, fun _ => 0⟩ true
        ⟨[], none, [], [], []⟩ [] 0 none =
      (ApiResponse.failure (strL "Proporciona un término de búsqueda o una imagen"), []) :=
  (C4_reject_empty _ _ _ _ _ _ rfl rfl).1

/-!  ## C5 -/

/-- C5 (counterexample): with the Firebase key configured and the
identity provider accepting the credentials, login succeeds for a pair
different from the demo pair shown on the login page; there is no
hardcoded credential check in `login_user`. -/
theorem C5_counterexample :
    (login_user true
        (FirebaseResp.ok (strL "uid1") (strL "eve@example.com") none (strL "tok"))
        (strL "eve@example.com") (strL "hunter2")).success = true ∧
    ¬ (strL "eve@example.com" = strL "admin@test.com" ∧
        strL "hunter2" = strL "password123") := by
  refine ⟨rfl, by decide⟩

/-- C5 (amended): `login_user` succeeds exactly when the Firebase key is
configured and the identity provider returns an HTTP success (the demo
pair appears only as a UI hint); every failure result carries a non-empty
message. -/
theorem C5_amended_login (key : Bool) (resp : FirebaseResp) (email password : LC) :
    ((login_user key resp email password).success = true ↔
      key = true ∧ ∃ a b c d, resp = FirebaseResp.ok a b c d) ∧
    ((login_user key resp email password).success = false →
      (login_user key resp email password).message ≠ []) := by
  cases key with
  | false =>
      refine ⟨by simp [login_user], fun _ => by simp [login_user]; decide⟩
  | true =>
      cases resp with
      | ok a b c d =>
          refine ⟨by simp [login_user], fun h => ?_⟩
          simp [login_user] at h
      | httpErr json =>
          cases json with
          | none =>
              refine ⟨by simp [login_user], fun _ => by simp [login_user]; decide⟩
          | some m =>
              constructor
              · simp only [login_user]
                split
                · simp
                · split
                  · simp
                  · split
                    · simp
                    · simp
              · intro _
                simp only [login_user]
                split
                · decide
                · split
                  · decide
                  · split
                    · decide
                    · decide
      | exn =>
          refine ⟨by simp [login_user], fun _ => by simp [login_user]; decide⟩

/-- Witness for C5 (amended): no key configured, so login fails with a
non-empty message. -/
theorem C5_witness :
    (login_user false FirebaseResp.exn (strL "a@b.c") (strL "pw")).message ≠ [] :=
  (C5_amended_login false FirebaseResp.exn (strL "a@b.c") (strL "pw")).2 rfl

/-!  ## Cache lemmas -/

theorem oldestEntry_mem : ∀ {c : Cache} {e : CacheEntry},
    oldestEntry c = some e → e ∈ c
  | [], _, h => by cases h
  | a :: rest, e, h => by
      unfold oldestEntry at h
      cases hr : oldestEntry rest with
      | none =>
          rw [hr] at h
          cases h
          exact List.mem_cons_self a rest
      | some m =>
          rw [hr] at h
          dsimp only at h
          by_cases hlt : m.2.2 < a.2.2
          · rw [if_pos hlt] at h
            cases h
            exact List.mem_cons_of_mem a (oldestEntry_mem hr)
          · rw [if_neg hlt] at h
            cases h
            exact List.mem_cons_self a rest

theorem oldestEntry_some (a : CacheEntry) (rest : Cache) :
    ∃ e, oldestEntry (a :: rest) = some e := by
  unfold oldestEntry
  cases oldestEntry rest with
  | none => exact ⟨a, rfl⟩
  | some m =>
      by_cases hlt : m.2.2 < a.2.2
      · exact ⟨m, by dsimp only; rw [if_pos hlt]⟩
      · exact ⟨a, by dsimp only; rw [if_neg hlt]⟩

theorem oldestEntry_min : ∀ {c : Cache} {e : CacheEntry},
    oldestEntry c = some e → ∀ x ∈ c, e.2.2 ≤ x.2.2
  | [], _, h => by cases h
  | a :: rest, e, h => by
      intro x hx
      unfold oldestEntry at h
      cases hr : oldestEntry rest with
      | none =>
          rw [hr] at h
          cases h
          cases List.mem_cons.mp hx with
          | inl hxa => rw [hxa]
          | inr hxr =>
              cases rest with
              | nil => cases hxr
              | cons b t => obtain ⟨m, hm⟩ := oldestEntry_some b t; rw [hm] at hr; cases hr
      | some m =>
          rw [hr] at h
          dsimp only at h
          by_cases hlt : m.2.2 < a.2.2
          · rw [if_pos hlt] at h
            cases h
            cases List.mem_cons.mp hx with
            | inl hxa => rw [hxa]; exact le_of_lt hlt
            | inr hxr => exact oldestEntry_min hr x hxr
          · rw [if_neg hlt] at h
            cases h
            cases List.mem_cons.mp hx with
            | inl hxa => rw [hxa]
            | inr hxr => exact le_trans (not_lt.mp hlt) (oldestEntry_min hr x hxr)

theorem mem_eraseP_of_pred_false {α : Type} {p : α → Bool} {x : α} :
    ∀ {l : List α}, x ∈ l → p x = false → x ∈ l.eraseP p
  | [], hx, _ => by cases hx
  | a :: t, hx, hpx => by
      rw [List.eraseP_cons]
      cases List.mem_cons.mp hx with
      | inl hxa =>
          have hpa : p a = false := by rw [← hxa]; exact hpx
          rw [hpa, Bool.cond_false, hxa]
          exact List.mem_cons_self a _
      | inr hxt =>
          cases hpa : p a with
          | true => simpa using hxt
          | false => simpa using Or.inr (mem_eraseP_of_pred_false hxt hpx)

theorem cacheInsert_length_le (c : Cache) (k : Int) (v : List Product × Int) :
    (cacheInsert c k v).length ≤ c.length + 1 := by
  unfold cacheInsert
  split
  · rw [List.length_map]; omega
  · rw [List.length_append]; simp

theorem cacheEvict_length {c : Cache} (h : c ≠ []) :
    (cacheEvict c).length = c.length - 1 := by
  cases c with
  | nil => exact absurd rfl h
  | cons a rest =>
      unfold cacheEvict
      obtain ⟨e, he⟩ := oldestEntry_some a rest
      rw [he]
      exact List.length_eraseP_of_mem (oldestEntry_mem he) (by simp)

theorem cachePut_length_le {c : Cache} (k : Int) (v : List Product × Int)
    (h : c.length ≤ 15) : (cachePut c k v).length ≤ 15 := by
  unfold cachePut
  have hle := cacheInsert_length_le c k v
  split
  · rename_i hgt
    have hne : cacheInsert c k v ≠ [] := by
      intro hnil
      rw [hnil] at hgt
      simp at hgt
    rw [cacheEvict_length hne]
    omega
  · omega

theorem cacheInsert_key_val {c : Cache} {k : Int} {v : List Product × Int} :
    ∀ z ∈ cacheInsert c k v, z.1 = k → z.2 = v := by
  intro z hz hzk
  unfold cacheInsert at hz
  split at hz
  · obtain ⟨y, hy, hyz⟩ := List.mem_map.mp hz
    by_cases hyk : y.1 = k
    · rw [if_pos hyk] at hyz
      rw [← hyz]
    · rw [if_neg hyk] at hyz
      rw [← hyz] at hzk
      exact absurd hzk hyk
  · rename_i hnone
    have hfn : List.find? (fun e => decide (e.1 = k)) c = none :=
      Option.not_isSome_iff_eq_none.mp (by simpa using hnone)
    rcases List.mem_append.mp hz with h | h
    · have := List.find?_eq_none.mp hfn z h
      simp at this
      exact absurd hzk this
    · simp at h
      rw [h]

/-- A successful lookup of the just-stored key always yields the
just-stored value, whether or not eviction ran. -/
theorem cacheLookup_cachePut {c : Cache} {k : Int} {v x : List Product × Int}
    (hx : cacheLookup (cachePut c k v) k = some x) : x = v := by
  unfold cacheLookup at hx
  cases hf : List.find? (fun e => decide (e.1 = k)) (cachePut c k v) with
  | none => rw [hf] at hx; cases hx
  | some e =>
      rw [hf] at hx
      have hx2 : e.2 = x := by simpa using hx
      have hek : e.1 = k := by simpa using List.find?_some hf
      have hmem : e ∈ cachePut c k v := List.mem_of_find?_eq_some hf
      have hmem₁ : e ∈ cacheInsert c k v := by
        unfold cachePut at hmem
        split at hmem
        · unfold cacheEvict at hmem
          split at hmem
          · exact hmem
          · exact List.Sublist.mem hmem (List.eraseP_sublist _)
        · exact hmem
      rw [← hx2]
      exact cacheInsert_key_val e hmem₁ hek

/-!  ## Reduction lemmas for `search_auto_parts` -/

theorem search_eq_nokey {env : Env} {inp : SearchInput} {st : Cache} {now : Int}
    {api : ApiData} {fq tag : LC}
    (hfq : buildQuerySource env inp = (some fq, tag)) (hlen : ¬ fq.length < 2)
    (hkey : env.api_key = false) :
    search_auto_parts env inp st now api = (get_auto_parts_examples fq, st) := by
  simp only [search_auto_parts, hfq, if_neg hlen, hkey]
  rfl

theorem search_eq_hit {env : Env} {inp : SearchInput} {st : Cache} {now : Int}
    {api : ApiData} {fq tag : LC} {v : List Product} {ts : Int}
    (hfq : buildQuerySource env inp = (some fq, tag)) (hlen : ¬ fq.length < 2)
    (hkey : env.api_key = true)
    (hl : cacheLookup st (queryKeyOf env fq) = some (v, ts))
    (hfresh : now - ts < 300) :
    search_auto_parts env inp st now api = (v, st) := by
  simp only [search_auto_parts, hfq, if_neg hlen, hkey, Bool.not_true, hl]
  simp [hfresh]

theorem search_eq_fresh {env : Env} {inp : SearchInput} {st : Cache} {now : Int}
    {api : ApiData} {fq tag : LC}
    (hfq : buildQuerySource env inp = (some fq, tag)) (hlen : ¬ fq.length < 2)
    (hkey : env.api_key = true)
    (hmiss : ∀ v ts, cacheLookup st (queryKeyOf env fq) = some (v, ts) →
      ¬ now - ts < 300) :
    search_auto_parts env inp st now api =
      (computeFresh inp fq tag api,
       cachePut st (queryKeyOf env fq) (computeFresh inp fq tag api, now)) := by
  simp only [search_auto_parts, hfq, if_neg hlen, hkey, Bool.not_true]
  cases hl : cacheLookup st (queryKeyOf env fq) with
  | none => simp
  | some p =>
      obtain ⟨v, ts⟩ := p
      have hstale := hmiss v ts hl
      simp [hstale]

theorem search_state_bound {env : Env} {inp : SearchInput} {st : Cache} {now : Int}
    {api : ApiData} (hb : st.length ≤ 15) :
    (search_auto_parts env inp st now api).2.length ≤ 15 := by
  unfold search_auto_parts
  split
  · exact hb
  · split
    · exact hb
    · split
      · exact hb
      · split
        · split
          · exact hb
          · exact cachePut_length_le _ _ hb
        · exact cachePut_length_le _ _ hb

theorem search_eq_none {env : Env} {inp : SearchInput} {st : Cache} {now : Int}
    {api : ApiData} {tag : LC}
    (h : buildQuerySource env inp = (none, tag)) :
    search_auto_parts env inp st now api =
      (get_auto_parts_examples (strL "brake pads"), st) := by
  simp only [search_auto_parts, h]

theorem search_eq_short {env : Env} {inp : SearchInput} {st : Cache} {now : Int}
    {api : ApiData} {fq tag : LC}
    (h : buildQuerySource env inp = (some fq, tag)) (hl : fq.length < 2) :
    search_auto_parts env inp st now api =
      (get_auto_parts_examples (strL "brake pads"), st) := by
  simp only [search_auto_parts, h, if_pos hl]

/-!  ## C6 -/

/-- C6: the result cache is keyed by the hash of the lowercased query
(`queryKeyOf`); (i) the cache never exceeds its capacity of 15 entries;
(ii) a cached list is returned, with the cache untouched, when the entry
is younger than the 300-second window; (iii) otherwise the result is
recomputed and stored under that key; and (iv) whenever an insertion
pushes the dict past 15 entries, exactly one entry is removed, one whose
timestamp is minimal, and every other entry survives. -/
theorem C6_cache_discipline (env : Env) (inp : SearchInput) (st : Cache) (now : Int)
    (api : ApiData) (fq tag : LC)
    (hb : st.length ≤ 15)
    (hkey : env.api_key = true)
    (hfq : buildQuerySource env inp = (some fq, tag))
    (hlen : ¬ fq.length < 2) :
    (search_auto_parts env inp st now api).2.length ≤ 15 ∧
    (∀ v ts, cacheLookup st (queryKeyOf env fq) = some (v, ts) → now - ts < 300 →
      search_auto_parts env inp st now api = (v, st)) ∧
    ((∀ v ts, cacheLookup st (queryKeyOf env fq) = some (v, ts) → ¬ now - ts < 300) →
      search_auto_parts env inp st now api =
        (computeFresh inp fq tag api,
         cachePut st (queryKeyOf env fq) (computeFresh inp fq tag api, now))) ∧
    (∀ (c : Cache) (k : Int) (v : List Product × Int),
      15 < (cacheInsert c k v).length →
      ∃ e ∈ cacheInsert c k v,
        (∀ x ∈ cacheInsert c k v, e.2.2 ≤ x.2.2) ∧
        cachePut c k v = List.eraseP (fun x => decide (x.1 = e.1)) (cacheInsert c k v) ∧
        (cachePut c k v).length + 1 = (cacheInsert c k v).length ∧
        (∀ x ∈ cacheInsert c k v, x.1 ≠ e.1 → x ∈ cachePut c k v)) := by
  refine ⟨search_state_bound hb, ?_, ?_, ?_⟩
  · intro v ts hl hfresh
    exact search_eq_hit hfq hlen hkey hl hfresh
  · intro hmiss
    exact search_eq_fresh hfq hlen hkey hmiss
  · intro c k v hgt
    obtain ⟨a, rest, hc⟩ : ∃ a rest, cacheInsert c k v = a :: rest := by
      cases hc : cacheInsert c k v with
      | nil => rw [hc] at hgt; simp at hgt
      | cons a rest => exact ⟨a, rest, rfl⟩
    obtain ⟨e, he₀⟩ := oldestEntry_some a rest
    have he : oldestEntry (cacheInsert c k v) = some e := by rw [hc]; exact he₀
    have hput : cachePut c k v =
        List.eraseP (fun x => decide (x.1 = e.1)) (cacheInsert c k v) := by
      unfold cachePut cacheEvict
      rw [if_pos hgt, he]
    have hlen' : (List.eraseP (fun x => decide (x.1 = e.1))
        (cacheInsert c k v)).length = (cacheInsert c k v).length - 1 :=
      List.length_eraseP_of_mem (oldestEntry_mem he) (by simp)
    refine ⟨e, oldestEntry_mem he, oldestEntry_min he, hput, ?_, ?_⟩
    · rw [hput, hlen']
      omega
    · intro x hx hxe
      rw [hput]
      exact mem_eraseP_of_pred_false hx (by simp [hxe])

/-- Witness for C6 on an empty cache with no prior entries. -/
theorem C6_witness :
    (search_auto_parts ⟨false, false, true, false, none, fun _ => 0⟩
      ⟨some (strL "brake pads"), false, none⟩ [] 0 none).2.length ≤ 15 :=
  (C6_cache_discipline _ _ _ _ _ (strL "brake pads") (strL "text")
    (by decide) rfl (by decide) (by decide)).1

/-!  ## C7 -/

/-- C7: repeating the identical call (same free text, image, vehicle
descriptor, and ambient environment) while the cache entry recorded after
the first call is still within the 300-second freshness window (or while
no API key is configured, in which case results are computed by the
deterministic example generator) yields exactly the same product list,
in the same order with the same field values. -/
theorem C7_repeat_identical (env : Env) (inp : SearchInput) (st : Cache)
    (now₁ now₂ : Int) (api₁ api₂ : ApiData)
    (h : env.api_key = false ∨
      ∀ fq tag, buildQuerySource env inp = (some fq, tag) →
        ∃ v ts,
          cacheLookup (search_auto_parts env inp st now₁ api₁).2 (queryKeyOf env fq) =
            some (v, ts) ∧ now₂ - ts < 300) :
    (search_auto_parts env inp (search_auto_parts env inp st now₁ api₁).2 now₂ api₂).1 =
      (search_auto_parts env inp st now₁ api₁).1 := by
  rcases hbq : buildQuerySource env inp with ⟨o, tag⟩
  cases o with
  | none =>
      have hA := @search_eq_none env inp st now₁ api₁ tag hbq
      rw [hA]
      rw [@search_eq_none env inp _ now₂ api₂ tag hbq]
  | some fq =>
      by_cases hl : fq.length < 2
      · have hA := @search_eq_short env inp st now₁ api₁ fq tag hbq hl
        rw [hA]
        rw [@search_eq_short env inp _ now₂ api₂ fq tag hbq hl]
      · cases hkey : env.api_key with
        | false =>
            have hA := @search_eq_nokey env inp st now₁ api₁ fq tag hbq hl hkey
            rw [hA]
            rw [@search_eq_nokey env inp _ now₂ api₂ fq tag hbq hl hkey]
        | true =>
            cases h with
            | inl hfalse => rw [hkey] at hfalse; cases hfalse
            | inr hh =>
                obtain ⟨v, ts, hlook, hfresh⟩ := hh fq tag hbq
                rw [search_eq_hit hbq hl hkey hlook hfresh]
                cases hl1 : cacheLookup st (queryKeyOf env fq) with
                | some p =>
                    obtain ⟨v₀, ts₀⟩ := p
                    by_cases hf1 : now₁ - ts₀ < 300
                    · have hA := @search_eq_hit env inp st now₁ api₁ fq tag v₀ ts₀ hbq hl hkey hl1 hf1
                      rw [hA] at hlook ⊢
                      rw [hl1] at hlook
                      have := Option.some.inj hlook
                      simp only [Prod.mk.injEq] at this
                      simpa using this.1.symm
                    · have hmiss : ∀ v' ts',
                          cacheLookup st (queryKeyOf env fq) = some (v', ts') →
                          ¬ now₁ - ts' < 300 := by
                        intro v' ts' h'
                        rw [hl1] at h'
                        have := Option.some.inj h'
                        simp only [Prod.mk.injEq] at this
                        rw [← this.2]
                        exact hf1
                      have hA := @search_eq_fresh env inp st now₁ api₁ fq tag hbq hl hkey hmiss
                      rw [hA] at hlook ⊢
                      have := cacheLookup_cachePut hlook
                      simp only [Prod.mk.injEq] at this
                      simpa using this.1
                | none =>
                    have hmiss : ∀ v' ts',
                        cacheLookup st (queryKeyOf env fq) = some (v', ts') →
                        ¬ now₁ - ts' < 300 := by
                      intro v' ts' h'
                      rw [hl1] at h'
                      cases h'
                    have hA := @search_eq_fresh env inp st now₁ api₁ fq tag hbq hl hkey hmiss
                    rw [hA] at hlook ⊢
                    have := cacheLookup_cachePut hlook
                    simp only [Prod.mk.injEq] at this
                    simpa using this.1

/-- Witness for C7: with no API key configured the repetition is
trivially identical. -/
theorem C7_witness :
    (search_auto_parts ⟨false, false, false, false, none, fun _ => 0⟩
        ⟨some (strL "brake pads"), false, none⟩
        (search_auto_parts ⟨false, false, false, false, none, fun _ => 0⟩
          ⟨some (strL "brake pads"), false, none⟩ [] 0 none).2 1 none).1 =
      (search_auto_parts ⟨false, false, false, false, none, fun _ => 0⟩
        ⟨some (strL "brake pads"), false, none⟩ [] 0 none).1 :=
  C7_repeat_identical _ _ _ _ _ _ _ (Or.inl rfl)

/-!  ## C8 -/

theorem sessionRequestGo_resp_not_retryable :
    ∀ (l : List Attempt) (n : Nat) (c : Nat) (b : LC),
      (sessionRequestGo l n).result = TransportResult.resp c b →
      retryableStatus c = false
  | [], n, c, b => by
      intro h
      simp [sessionRequestGo] at h
  | a :: rest, n, c, b => by
      intro h
      unfold sessionRequestGo at h
      by_cases hra : attemptRetryable a = true
      · rw [if_pos hra] at h
        by_cases hn : n = 3
        · rw [if_pos hn] at h
          simp at h
        · rw [if_neg hn] at h
          exact sessionRequestGo_resp_not_retryable rest (n + 1) c b (by simpa using h)
      · rw [if_neg hra] at h
        cases a with
        | status c' b' =>
            simp at h
            have hc : retryableStatus c' = false := by
              simpa [attemptRetryable] using hra
            rw [← h.1]
            exact hc
        | netErr => simp at h
        | fatal => simp at h

theorem sessionRequestGo_surface :
    ∀ (pre : List Attempt) (n : Nat) (o : Attempt) (rest : List Attempt),
      (∀ r ∈ pre, attemptRetryable r = true) → pre.length + n ≤ 3 →
      attemptRetryable o = false →
      sessionRequestGo (pre ++ o :: rest) n =
        ⟨surfaceTransport o, rest, pre.length + 1, sleptFrom n pre.length⟩
  | [], n, o, rest => by
      intro _ _ ho
      simp only [List.nil_append]
      unfold sessionRequestGo
      rw [if_neg (by simp [ho])]
      cases o with
      | status c b => rfl
      | netErr => cases ho
      | fatal => rfl
  | a :: pre, n, o, rest => by
      intro hpre hlen ho
      have hra : attemptRetryable a = true := hpre a (List.mem_cons_self a pre)
      have hn : ¬ n = 3 := by
        simp only [List.length_cons] at hlen
        omega
      simp only [List.cons_append]
      unfold sessionRequestGo
      rw [if_pos hra, if_neg hn]
      rw [sessionRequestGo_surface pre (n + 1) o rest
        (fun r hr => hpre r (List.mem_cons_of_mem a hr))
        (by simp only [List.length_cons] at hlen; omega) ho]
      simp only [List.length_cons, sleptFrom]
      congr 1
      omega

theorem sessionRequestGo_exhaust (a₀ a₁ a₂ a₃ : Attempt) (rest : List Attempt)
    (h₀ : attemptRetryable a₀ = true) (h₁ : attemptRetryable a₁ = true)
    (h₂ : attemptRetryable a₂ = true) (h₃ : attemptRetryable a₃ = true) :
    sessionRequestGo (a₀ :: a₁ :: a₂ :: a₃ :: rest) 0 =
      ⟨TransportResult.raised, rest, 4, 6⟩ := by
  simp [sessionRequestGo, h₀, h₁, h₂, h₃, transportBackoff]

/-- The transport never surfaces a force-list status, so the in-code
429 branch never runs: every `make_request` call issues exactly one
`session.request` (when robots.txt allows it) and never sleeps 60 s. -/
theorem makeRequestLoop_single (fuel : Nat) (attempts : List Attempt)
    (calls used ts s60 : Nat) :
    (makeRequestLoop (fuel + 1) attempts calls used ts s60).sessionCalls = calls + 1 ∧
    (makeRequestLoop (fuel + 1) attempts calls used ts s60).sleep60 = s60 := by
  rcases hs : sessionRequest attempts with ⟨res, rest, a, sl⟩
  cases res with
  | raised => simp [makeRequestLoop, hs]
  | resp c b =>
      have hc : retryableStatus c = false :=
        sessionRequestGo_resp_not_retryable attempts 0 c b (by rw [show sessionRequestGo attempts 0 = sessionRequest attempts from rfl, hs])
      have hc429 : ¬ c = 429 := by
        intro h
        rw [h] at hc
        simp [retryableStatus] at hc
      simp only [makeRequestLoop, hs]
      rw [if_neg hc429]
      split
      · exact ⟨rfl, rfl⟩
      · exact ⟨rfl, rfl⟩

/-- C8 (counterexample): the session's `Retry` adapter automatically
retries failures other than 429 — here an HTTP 500 is retried and the
second attempt's response is returned (two low-level attempts for one
call, where the claim's "no other failure is ever retried" demands one);
and a request hitting only 429s is retried three times with exponential
back-off (0+2+4 = 6 s, not one retry after a fixed delay) and then
raises, the in-code 60-second branch never running. -/
theorem C8_counterexample :
    make_request true [Attempt.status 500 (strL "err"), Attempt.status 200 (strL "ok")] =
      ⟨some (strL "ok"), 1, 2, 0, 0⟩ ∧
    ¬ (make_request true
        [Attempt.status 500 (strL "err"), Attempt.status 200 (strL "ok")]).attempts ≤ 1 ∧
    make_request true [Attempt.status 429 (strL "a"), Attempt.status 429 (strL "b"),
        Attempt.status 429 (strL "c"), Attempt.status 429 (strL "d")] =
      ⟨none, 1, 4, 6, 0⟩ := by
  decide

/-- C8 (amended): the program's automatic retries happen in the
scraper's HTTP session, whose `Retry` adapter (configured in
`EthicalWebScraper.__init__`) retries an attempt that fails with a
connection/read error or returns HTTP 429/500/502/503/504, up to 3
times per request with exponential back-off (0 s, 2 s, 4 s), and
surfaces the first non-retryable outcome at once; an exhausted budget
raises and `make_request` returns `None`.  Consequently a force-list
status never reaches `make_request` itself: per call `session.request`
runs at most once and the in-code fixed 60-second 429 retry never
executes. -/
theorem C8_amended_transport_retry :
    (∀ (pre : List Attempt) (o : Attempt) (rest : List Attempt),
      (∀ r ∈ pre, attemptRetryable r = true) → pre.length ≤ 3 →
      attemptRetryable o = false →
      make_request true (pre ++ o :: rest) =
        ⟨surfaceResult o, 1, pre.length + 1, sleptFrom 0 pre.length, 0⟩) ∧
    (∀ (a₀ a₁ a₂ a₃ : Attempt) (rest : List Attempt),
      attemptRetryable a₀ = true → attemptRetryable a₁ = true →
      attemptRetryable a₂ = true → attemptRetryable a₃ = true →
      make_request true (a₀ :: a₁ :: a₂ :: a₃ :: rest) = ⟨none, 1, 4, 6, 0⟩) ∧
    (∀ (allowed : Bool) (attempts : List Attempt),
      (make_request allowed attempts).sessionCalls ≤ 1 ∧
      (make_request allowed attempts).sleep60 = 0) := by
  refine ⟨?_, ?_, ?_⟩
  · intro pre o rest hpre hlen ho
    have hs : sessionRequest (pre ++ o :: rest) =
        ⟨surfaceTransport o, rest, pre.length + 1, sleptFrom 0 pre.length⟩ :=
      sessionRequestGo_surface pre 0 o rest hpre (by omega) ho
    unfold make_request
    rw [if_pos rfl]
    cases o with
    | status c b =>
        have hc : retryableStatus c = false := by simpa [attemptRetryable] using ho
        have hc429 : ¬ c = 429 := by
          intro h
          rw [h] at hc
          simp [retryableStatus] at hc
        simp only [makeRequestLoop, hs, surfaceTransport]
        rw [if_neg hc429]
        by_cases h46 : 400 ≤ c ∧ c < 600
        · rw [if_pos h46]
          simp [surfaceResult, h46]
        · rw [if_neg h46]
          simp [surfaceResult, h46]
    | netErr => cases ho
    | fatal =>
        simp only [makeRequestLoop, hs, surfaceTransport, surfaceResult]
        simp
  · intro a₀ a₁ a₂ a₃ rest h₀ h₁ h₂ h₃
    have hs : sessionRequest (a₀ :: a₁ :: a₂ :: a₃ :: rest) =
        ⟨TransportResult.raised, rest, 4, 6⟩ :=
      sessionRequestGo_exhaust a₀ a₁ a₂ a₃ rest h₀ h₁ h₂ h₃
    unfold make_request
    rw [if_pos rfl]
    simp only [makeRequestLoop, hs]
  · intro allowed attempts
    cases allowed with
    | false => exact ⟨by simp [make_request], by simp [make_request]⟩
    | true =>
        have h := makeRequestLoop_single attempts.length attempts 0 0 0 0
        unfold make_request
        rw [if_pos rfl]
        exact ⟨le_of_eq h.1, h.2⟩

/-- Witness for C8 (amended): a 429 and a connection error are retried
by the adapter (sleeping 0 s then 2 s), then the 200 response surfaces;
one `session.request`, three attempts, no 60-second sleep. -/
theorem C8_witness :
    make_request true [Attempt.status 429 (strL "slow"), Attempt.netErr,
        Attempt.status 200 (strL "ok")] =
      ⟨some (strL "ok"), 1, 3, 2, 0⟩ :=
  (C8_amended_transport_retry.1 [Attempt.status 429 (strL "slow"), Attempt.netErr]
    (Attempt.status 200 (strL "ok")) [] (by decide) (by decide) (by decide)).trans
    (by decide)

/-!  ## C9 -/

/-- C9: on the external-API path (key configured, cache missed or stale)
the returned list has at most six products and is sorted in
non-decreasing order of `price_numeric`. -/
theorem C9_api_path_sorted (env : Env) (inp : SearchInput) (st : Cache) (now : Int)
    (api : ApiData) (fq tag : LC)
    (hkey : env.api_key = true)
    (hfq : buildQuerySource env inp = (some fq, tag))
    (hlen : ¬ fq.length < 2)
    (hmiss : ∀ v ts, cacheLookup st (queryKeyOf env fq) = some (v, ts) →
      ¬ now - ts < 300) :
    (search_auto_parts env inp st now api).1.length ≤ 6 ∧
    List.Pairwise (fun a b => a.price_numeric ≤ b.price_numeric)
      (search_auto_parts env inp st now api).1 := by
  rw [search_eq_fresh hfq hlen hkey hmiss]
  constructor
  · simp only [computeFresh, List.length_map, List.length_take]
    exact min_le_left 6 _
  · simp only [computeFresh]
    apply List.pairwise_map.mpr
    have htrans : ∀ a b c : Product,
        priceLe a b = true → priceLe b c = true → priceLe a c = true := by
      intro a b c hab hbc
      unfold priceLe at *
      exact decide_eq_true (le_trans (of_decide_eq_true hab) (of_decide_eq_true hbc))
    have htotal : ∀ a b : Product, (priceLe a b || priceLe b a) = true := by
      intro a b
      unfold priceLe
      rcases Nat.le_total a.price_numeric b.price_numeric with h | h
      · simp [h]
      · simp [h]
    have hs := List.sorted_mergeSort htrans htotal
      (if process_auto_parts_results api = [] then get_auto_parts_examples fq
       else process_auto_parts_results api)
    have hs6 := List.Pairwise.sublist (List.take_sublist 6 _) hs
    exact hs6.imp (fun h => of_decide_eq_true h)

/-- Witness for C9 at a concrete API-path call with an empty cache. -/
theorem C9_witness :
    (search_auto_parts ⟨false, false, true, false, none, fun _ => 0⟩
      ⟨some (strL "brake pads"), false, none⟩ [] 0 none).1.length ≤ 6 :=
  (C9_api_path_sorted _ _ _ _ _ (strL "brake pads") (strL "text")
    rfl (by decide) (by decide) (fun v ts h => by simp [cacheLookup] at h)).1

/-!  ## C10 -/

/-- C10: `clear_user_session` removes every session key except
`timestamp`, whose value (when present) is preserved unchanged. -/
theorem C10_clear_session {α : Type} (s : Session α) (k : LC) :
    (k ≠ strL "timestamp" → sessionLookup (clear_user_session s) k = none) ∧
    sessionLookup (clear_user_session s) (strL "timestamp") =
      sessionLookup s (strL "timestamp") := by
  unfold clear_user_session
  cases hf : s.find? (fun e => decide (e.1 = strL "timestamp")) with
  | none =>
      constructor
      · intro _
        simp [sessionLookup]
      · simp [sessionLookup, hf]
  | some e =>
      constructor
      · intro hk
        unfold sessionLookup
        rw [List.find?_cons]
        have hd : decide ((⟨strL "timestamp", e.2⟩ : LC × α).1 = k) = false := by
          apply decide_eq_false
          intro h
          exact hk h.symm
        rw [hd]
        rfl
      · unfold sessionLookup
        rw [hf, List.find?_cons]
        have hd : decide ((⟨strL "timestamp", e.2⟩ : LC × α).1 = strL "timestamp") = true := by
          apply decide_eq_true
          rfl
        rw [hd]
        rfl

/-- Witness for C10 on a concrete two-entry session. -/
theorem C10_witness :
    sessionLookup (clear_user_session
        [(strL "user_id", 1), (strL "timestamp", 7)]) (strL "user_id") = none ∧
    sessionLookup (clear_user_session
        [(strL "user_id", 1), (strL "timestamp", 7)]) (strL "timestamp") =
      sessionLookup [(strL "user_id", (1 : Nat)), (strL "timestamp", 7)]
        (strL "timestamp") :=
  ⟨(C10_clear_session [(strL "user_id", 1), (strL "timestamp", 7)]
      (strL "user_id")).1 (by decide),
   (C10_clear_session [(strL "user_id", 1), (strL "timestamp", 7)]
      (strL "timestamp")).2⟩

end AutoParts
